import Mathlib

/-!
Shallow embedding of `lit/networks/interpolation_layer.py` (class `_ZoomNd`
and its subclasses `Zoom2d` / `Zoom3d`): the per-axis crop/pad planner
`_calculate_crop_pad`, the scale-factor normalizer `_fix_scale_factors`, and
the batch driver `forward`.  Python floats are modelled as exact rationals;
Python `int()` truncation and `%` on integers are modelled explicitly; every
Python `raise` (including `ZeroDivisionError` at a division site) becomes an
`Except.error`.
-/

namespace LITZoom

/-- Python `int(q)`: truncation of a real (here: exact rational) toward zero,
i.e. floor for nonnegative arguments and ceiling for negative ones. -/
def pyInt (q : ℚ) : ℤ := if 0 ≤ q then ⌊q⌋ else ⌈q⌉

/-- Alignment of the crop/pad along one axis.  The source branches on the
strings `"mid"` and `"from_end"`; every other string behaves like
`"from_start"`, and the callers (`Zoom2d._interpolate`, `Zoom3d._interpolate`)
only ever pass these three strings. -/
inductive Alignment
  | from_start
  | from_end
  | mid
deriving DecidableEq

/-- The exceptions the embedded code can raise: `zeroDiv` for a Python
`ZeroDivisionError` at a division site, `notImplemented` for the explicit
`raise NotImplementedError("not tested yet!")`, `invalidFormat` for the
wrong-length scale-entry `ValueError` of `_fix_scale_factors`, `noChunks`
for the "no chunks returned" `ValueError` in `forward`, and `missingTarget`
for the empty-`target_shape` `AttributeError` in `forward`. -/
inductive ZErr
  | zeroDiv
  | notImplemented
  | invalidFormat
  | noChunks
  | missingTarget
deriving DecidableEq

/-- Result of `_calculate_crop_pad` for one axis: the crop `slice(start, stop)`,
the corrected scale factor written back into the scale vector, the padding
pair `(padBefore, padAfter)` and the interpolation target size. -/
structure AxisPlan where
  start : ℤ
  stop : ℤ
  scale : ℚ
  padBefore : ℤ
  padAfter : ℤ
  interpTarget : ℤ
deriving DecidableEq

/-- The `out` value of `_calculate_crop_pad`: `source_size = target * scale`
rounded by `int()`, except that under `"mid"` alignment with
`(input_size - int(source_size))` odd, `out = int(source_size / 2) * 2`. -/
def outSize (this_in_shape : ℤ) (sf : ℚ) (tgt : ℤ) (align : Alignment) : ℤ :=
  if align = Alignment.mid ∧ (this_in_shape - pyInt ((tgt : ℚ) * sf)) % 2 ≠ 0 then
    pyInt ((tgt : ℚ) * sf / 2) * 2
  else
    pyInt ((tgt : ℚ) * sf)

/-- The padding-proportion pair of the padding branch of
`_calculate_crop_pad`: `(1.0, 0.0)` for `"from_end"`, `(0.5, 0.5)` for
`"mid"`, `(0.0, 1.0)` otherwise.  The first component is the padding placed
before the data, the second the padding placed after it (`F.pad` order). -/
def padProps : Alignment → ℚ × ℚ
  | .from_end => (1, 0)
  | .mid => (1 / 2, 1 / 2)
  | .from_start => (0, 1)

/-- `_ZoomNd._calculate_crop_pad` for a single axis
(`this_in_shape = in_shape[dim + 2]`, `sf = scale_factor[dim]`,
`tgt = target_shape[dim]`).  Division sites are guarded in source order:
Python raises `ZeroDivisionError` at `out / target_shape[dim]` when the
target is 0, at `int(this_in_shape / scale_factor[dim])` when the scale
factor is 0, and at `this_in_shape / interp_target_shape` when the
interpolation target is 0; the `raise NotImplementedError("not tested
yet!")` sits between the last two divisions. -/
def calculate_crop_pad (this_in_shape : ℤ) (sf : ℚ) (tgt : ℤ)
    (align : Alignment) : Except ZErr AxisPlan :=
  let out := outSize this_in_shape sf tgt align
  if tgt = 0 then .error .zeroDiv
  else
    let rescale_factor : ℚ := (out : ℚ) / (tgt : ℚ)
    if out > this_in_shape then
      let props := padProps align
      if sf = 0 then .error .zeroDiv
      else
        let interp_target_shape := pyInt ((this_in_shape : ℚ) / sf)
        if align = Alignment.mid ∧ (interp_target_shape - tgt) % 2 ≠ 0 then
          .error .notImplemented
        else if interp_target_shape = 0 then .error .zeroDiv
        else
          let rescale_factor := (this_in_shape : ℚ) / (interp_target_shape : ℚ)
          let full_pad := tgt - interp_target_shape
          .ok ⟨0, this_in_shape, rescale_factor,
               pyInt (props.1 * (full_pad : ℚ)), pyInt (props.2 * (full_pad : ℚ)),
               interp_target_shape⟩
    else
      let start : ℤ :=
        if align = Alignment.mid then pyInt (((this_in_shape - out : ℤ) : ℚ) / 2)
        else if align = Alignment.from_end then this_in_shape - out
        else 0
      let stop : ℤ :=
        if align = Alignment.from_end then this_in_shape else start + out
      .ok ⟨start, stop, rescale_factor, 0, 0, tgt⟩

/-! ### The scale-factor normalizer `_fix_scale_factors` and `forward` -/

/-- One entry of a sequence-shaped `scale_factors` argument: a Python number,
or a sequence/array of numbers. -/
inductive SFEntry
  | num (x : ℚ)
  | vec (xs : List ℚ)
deriving DecidableEq

/-- The accepted shapes of the `scale_factors` argument of `forward`: a bare
number, or an iterable of entries (list / ndarray / tensor rows). -/
inductive ScaleAll
  | num (x : ℚ)
  | seq (entries : List SFEntry)
deriving DecidableEq

/-- Normalization of one entry of an iterable `scale_factors` in
`_fix_scale_factors`: a bare number broadcasts to an `N`-vector
(`sf = [sf] * self._N`); a sequence keeps its values but raises a
`ValueError` unless its length is exactly `N` — note that the source's
`if sf_dim != self._N` check runs on the *original* `sf_dim` even after the
length-1 broadcast, so a length-1 sequence entry also raises when `N ≠ 1`. -/
def normEntry (N : ℕ) : SFEntry → Except ZErr (List ℚ)
  | .num x => .ok (List.replicate N x)
  | .vec xs => if xs.length = N then .ok xs else .error .invalidFormat

/-- Entry-wise normalization of all entries, propagating the first raise. -/
def normEntries (N : ℕ) : List SFEntry → Except ZErr (List (List ℚ))
  | [] => .ok []
  | e :: es =>
    match normEntry N e, normEntries N es with
    | .error err, _ => .error err
    | .ok _, .error err => .error err
    | .ok v, .ok vs => .ok (v :: vs)

/-- The run-grouping loop of `_fix_scale_factors` after the first entry has
been normalized: `last` is `last_sf`, `num` the length of the current run. -/
def runsAux (last : List ℚ) (num : ℕ) : List (List ℚ) → List (List ℚ × ℕ)
  | [] => [(last, num)]
  | sf :: rest =>
    if last ≠ sf then (last, num) :: runsAux sf 1 rest
    else runsAux last (num + 1) rest

/-- Grouping of consecutive equal normalized scale vectors into
`(vector, run_length)` pairs, as yielded by `_fix_scale_factors`. -/
def groupRuns : List (List ℚ) → List (List ℚ × ℕ)
  | [] => []
  | sf :: rest => runsAux sf 1 rest

/-- `_ZoomNd._fix_scale_factors`: a bare number yields a single run
`([sf] * N, batch_size)`; an iterable is traversed per entry (the *first*
dimension indexes batch samples), each entry is normalized to an `N`-vector,
and consecutive equal vectors are grouped into runs.  The generator is
modelled as the materialized list of its yields, which is how `forward`
consumes it. -/
def fix_scale_factors (N : ℕ) (scale_factors : ScaleAll) (batch_size : ℕ) :
    Except ZErr (List (List ℚ × ℕ)) :=
  match scale_factors with
  | .seq entries =>
    match normEntries N entries with
    | .error e => .error e
    | .ok vs => .ok (groupRuns vs)
  | .num x => .ok [(List.replicate N x, batch_size)]

/-- `torch.split(input_tensor, chunks, dim=0)`, with the batch modelled as a
list of samples.  (`torch.split` additionally requires the chunk sizes to sum
to the batch size; the claims only use it in that regime.) -/
def splitChunks {α : Type} : List α → List ℕ → List (List α)
  | _, [] => []
  | xs, n :: ns => xs.take n :: splitChunks (xs.drop n) ns

/-- The `rescale` inversion in `forward`: `scale_f = [1 / sf for sf in scale_f]`. -/
def invScale (v : List ℚ) : List ℚ := v.map (fun x => 1 / x)

/-- `_ZoomNd.forward`, with the input tensor modelled as the list of its
batch samples (each sample abstract) and `_interpolate` (the per-chunk
crop/interpolate/pad worker of `Zoom2d` / `Zoom3d`) abstracted as a function
argument — the spec treats the tensor resampler as an external black box.
The tensor-rank check is not representable on abstract samples and is
omitted; the empty-`target_shape` check, the run decomposition, the
chunk loop with optional scale inversion, the concatenation of chunk outputs
and the per-sample re-expansion of corrected scale vectors are kept. -/
def forward {α : Type}
    (interpolate : List α → List ℚ → List ℤ → List α × List ℚ)
    (N : ℕ) (input : List α) (scale_factors : ScaleAll)
    (target_shape : List ℤ) (rescale : Bool) :
    Except ZErr (List α × List (List ℚ)) :=
  if target_shape.length = 0 then .error .missingTarget
  else
    match fix_scale_factors N scale_factors input.length with
    | .error e => .error e
    | .ok runs =>
      if runs.length = 0 then .error .noChunks
      else
        let chunks := splitChunks input (runs.map Prod.snd)
        let pieces := (chunks.zip runs).map fun c =>
          let scale_f := if rescale then invScale c.2.1 else c.2.1
          let r := interpolate c.1 scale_f target_shape
          (r.1, r.2, c.2.2)
        .ok ((pieces.map fun r => r.1).flatten,
             pieces.flatMap fun r => List.replicate r.2.2 r.2.1)

/-- A `scale_factors` argument conforming to the documented contract of
`forward` ("The first dimension corresponds to and must be equal to the
batch size of the image"): a bare number, or an iterable whose length equals
the batch size. -/
def conformingScales (scale_factors : ScaleAll) (batch_size : ℕ) : Prop :=
  match scale_factors with
  | .num _ => True
  | .seq es => es.length = batch_size

/-! ### Basic facts about `pyInt` -/

lemma pyInt_intCast (n : ℤ) : pyInt (n : ℚ) = n := by
  unfold pyInt
  split <;> simp

lemma pyInt_nonneg {q : ℚ} (h : 0 ≤ q) : 0 ≤ pyInt q := by
  unfold pyInt
  rw [if_pos h]
  exact Int.floor_nonneg.mpr h

lemma pyInt_le {q : ℚ} (h : 0 ≤ q) : (pyInt q : ℚ) ≤ q := by
  unfold pyInt
  rw [if_pos h]
  exact Int.floor_le q

/-! ### Branch-inversion lemmas for `_calculate_crop_pad` -/

/-- Inversion for the padding branch (`out > this_in_shape`): a successful
call fixes every field of the returned plan. -/
lemma pad_branch_ok {i : ℤ} {sf : ℚ} {t : ℤ} {a : Alignment} {p : AxisPlan}
    (h : calculate_crop_pad i sf t a = .ok p)
    (hout : outSize i sf t a > i) :
    t ≠ 0 ∧ sf ≠ 0 ∧
    p.interpTarget = pyInt ((i : ℚ) / sf) ∧ p.interpTarget ≠ 0 ∧
    p.start = 0 ∧ p.stop = i ∧
    p.scale = (i : ℚ) / ((p.interpTarget : ℤ) : ℚ) ∧
    (a = Alignment.mid → (p.interpTarget - t) % 2 = 0) ∧
    p.padBefore = pyInt ((padProps a).1 * ((t - p.interpTarget : ℤ) : ℚ)) ∧
    p.padAfter = pyInt ((padProps a).2 * ((t - p.interpTarget : ℤ) : ℚ)) := by
  simp only [calculate_crop_pad] at h
  by_cases ht : t = 0
  · rw [if_pos ht] at h
    exact Except.noConfusion h
  rw [if_neg ht, if_pos hout] at h
  by_cases hsf : sf = 0
  · rw [if_pos hsf] at h
    exact Except.noConfusion h
  rw [if_neg hsf] at h
  by_cases hpar : a = Alignment.mid ∧ (pyInt ((i : ℚ) / sf) - t) % 2 ≠ 0
  · rw [if_pos hpar] at h
    exact Except.noConfusion h
  rw [if_neg hpar] at h
  by_cases hit : pyInt ((i : ℚ) / sf) = 0
  · rw [if_pos hit] at h
    exact Except.noConfusion h
  rw [if_neg hit] at h
  injection h with h
  subst h
  push_neg at hpar
  exact ⟨ht, hsf, rfl, hit, rfl, rfl, rfl, hpar, rfl, rfl⟩

/-- Inversion for the cropping / exact-fit branch (`out ≤ this_in_shape`):
a successful call fixes every field of the returned plan. -/
lemma crop_branch_ok {i : ℤ} {sf : ℚ} {t : ℤ} {a : Alignment} {p : AxisPlan}
    (h : calculate_crop_pad i sf t a = .ok p)
    (hout : ¬ outSize i sf t a > i) :
    t ≠ 0 ∧ p.padBefore = 0 ∧ p.padAfter = 0 ∧ p.interpTarget = t ∧
    p.scale = ((outSize i sf t a : ℤ) : ℚ) / ((t : ℤ) : ℚ) ∧
    p.stop - p.start = outSize i sf t a ∧
    p.start = (if a = Alignment.mid then pyInt (((i - outSize i sf t a : ℤ) : ℚ) / 2)
               else if a = Alignment.from_end then i - outSize i sf t a else 0) ∧
    p.stop = (if a = Alignment.from_end then i else p.start + outSize i sf t a) := by
  simp only [calculate_crop_pad] at h
  by_cases ht : t = 0
  · rw [if_pos ht] at h
    exact Except.noConfusion h
  rw [if_neg ht, if_neg hout] at h
  injection h with h
  subst h
  refine ⟨ht, rfl, rfl, rfl, rfl, ?_, rfl, rfl⟩
  rcases a with _ | _ | _ <;> simp

lemma pyInt_zero : pyInt 0 = 0 := by
  unfold pyInt
  simp

/-- The padding amounts of a returning padding-branch call always add up to
`target - interp_target` (for `mid`, the raise guard has already forced the
shortfall to be even). -/
lemma pad_sum_eq {t it : ℤ} {a : Alignment}
    (hpar : a = Alignment.mid → (it - t) % 2 = 0) :
    pyInt ((padProps a).1 * ((t - it : ℤ) : ℚ)) +
      pyInt ((padProps a).2 * ((t - it : ℤ) : ℚ)) = t - it := by
  rcases a with _ | _ | _
  · have h1 : (padProps Alignment.from_start).1 = 0 := rfl
    have h2 : (padProps Alignment.from_start).2 = 1 := rfl
    rw [h1, h2, zero_mul, one_mul, pyInt_zero, pyInt_intCast, zero_add]
  · have h1 : (padProps Alignment.from_end).1 = 1 := rfl
    have h2 : (padProps Alignment.from_end).2 = 0 := rfl
    rw [h1, h2, zero_mul, one_mul, pyInt_zero, pyInt_intCast, add_zero]
  · obtain ⟨k, hk⟩ : 2 ∣ (t - it) := by
      have := hpar rfl
      omega
    have h1 : (padProps Alignment.mid).1 = 1 / 2 := rfl
    have h2 : (padProps Alignment.mid).2 = 1 / 2 := rfl
    have hhalf : (1 / 2 : ℚ) * ((t - it : ℤ) : ℚ) = ((k : ℤ) : ℚ) := by
      rw [hk]
      push_cast
      ring
    rw [h1, h2, hhalf, pyInt_intCast]
    omega

/-- With a nonnegative target and scale factor, `out` is nonnegative. -/
lemma outSize_nonneg {i t : ℤ} {sf : ℚ} (ht : 0 ≤ t) (hsf : 0 ≤ sf)
    (a : Alignment) : 0 ≤ outSize i sf t a := by
  unfold outSize
  have hsrc : 0 ≤ (t : ℚ) * sf := mul_nonneg (by exact_mod_cast ht) hsf
  split
  · have hh : 0 ≤ (t : ℚ) * sf / 2 := div_nonneg hsrc (by norm_num)
    have := pyInt_nonneg hh
    omega
  · exact pyInt_nonneg hsrc

/-- A zero scale factor forces `out = 0`. -/
lemma outSize_zero_sf (i t : ℤ) (a : Alignment) : outSize i 0 t a = 0 := by
  unfold outSize
  split <;> simp [pyInt_zero]

/-! ### Facts about run grouping -/

lemma runsAux_snd_sum (last : List ℚ) (num : ℕ) (l : List (List ℚ)) :
    ((runsAux last num l).map Prod.snd).sum = num + l.length := by
  induction l generalizing last num with
  | nil => simp [runsAux]
  | cons sf rest ih =>
    by_cases hne : last ≠ sf
    · simp only [runsAux, if_pos hne, List.map_cons, List.sum_cons, ih,
        List.length_cons]
      omega
    · simp only [runsAux, if_neg hne, ih, List.length_cons]
      omega

lemma runsAux_flat (last : List ℚ) (num : ℕ) (l : List (List ℚ)) :
    (runsAux last num l).flatMap (fun r => List.replicate r.2 r.1) =
      List.replicate num last ++ l := by
  induction l generalizing last num with
  | nil => simp [runsAux]
  | cons sf rest ih =>
    by_cases hne : last ≠ sf
    · simp only [runsAux, if_pos hne, List.flatMap_cons, ih]
      simp
    · push_neg at hne
      subst hne
      simp only [runsAux, if_neg (by simp : ¬ last ≠ last), ih]
      rw [List.replicate_succ', List.append_assoc]
      simp

lemma groupRuns_snd_sum (l : List (List ℚ)) :
    ((groupRuns l).map Prod.snd).sum = l.length := by
  cases l with
  | nil => rfl
  | cons sf rest =>
    rw [groupRuns, runsAux_snd_sum]
    simp
    omega

lemma groupRuns_flat (l : List (List ℚ)) :
    (groupRuns l).flatMap (fun r => List.replicate r.2 r.1) = l := by
  cases l with
  | nil => rfl
  | cons sf rest =>
    rw [groupRuns, runsAux_flat]
    simp

lemma normEntries_length {N : ℕ} {es : List SFEntry} {vs : List (List ℚ)}
    (h : normEntries N es = .ok vs) : vs.length = es.length := by
  induction es generalizing vs with
  | nil =>
    simp only [normEntries] at h
    injection h with h
    subst h
    rfl
  | cons e es ih =>
    simp only [normEntries] at h
    cases he : normEntry N e with
    | error err => rw [he] at h; exact Except.noConfusion h
    | ok v =>
      rw [he] at h
      cases hes : normEntries N es with
      | error err => rw [hes] at h; exact Except.noConfusion h
      | ok ws =>
        rw [hes] at h
        injection h with h
        subst h
        simp [ih hes]

lemma splitChunks_flatten {α : Type} (input : List α) (ns : List ℕ)
    (h : ns.sum = input.length) : (splitChunks input ns).flatten = input := by
  induction ns generalizing input with
  | nil =>
    simp only [List.sum_nil] at h
    simp [splitChunks, (List.eq_nil_of_length_eq_zero h.symm)]
  | cons n ns ih =>
    simp only [List.sum_cons] at h
    simp only [splitChunks, List.flatten_cons]
    rw [ih (input.drop n) (by simp only [List.length_drop]; omega)]
    exact List.take_append_drop n input

lemma fix_seq_nums (N b : ℕ) (xs : List ℚ) :
    fix_scale_factors N (.seq (xs.map SFEntry.num)) b =
      .ok (groupRuns (xs.map (List.replicate N))) := by
  have hn : ∀ ys : List ℚ,
      normEntries N (ys.map SFEntry.num) = .ok (ys.map (List.replicate N)) := by
    intro ys
    induction ys with
    | nil => rfl
    | cons y ys ih => simp [normEntries, normEntry, ih]
  simp [fix_scale_factors, hn]

lemma invScale_injective : Function.Injective invScale := by
  have hf : Function.Injective (fun x : ℚ => 1 / x) := by
    intro x y hxy
    simp only [one_div] at hxy
    exact inv_injective hxy
  exact List.map_injective_iff.mpr hf

lemma runsAux_map (f : List ℚ → List ℚ) (hf : Function.Injective f)
    (last : List ℚ) (num : ℕ) (l : List (List ℚ)) :
    runsAux (f last) num (l.map f) =
      (runsAux last num l).map (fun r => (f r.1, r.2)) := by
  induction l generalizing last num with
  | nil => simp [runsAux]
  | cons sf rest ih =>
    by_cases hne : last ≠ sf
    · have hfe : f last ≠ f sf := fun hc => hne (hf hc)
      simp only [List.map_cons, runsAux, if_pos hfe, if_pos hne, ih]
    · push_neg at hne
      subst hne
      simp only [List.map_cons, runsAux, if_neg (by simp : ¬ f last ≠ f last),
        if_neg (by simp : ¬ last ≠ last), ih]

lemma groupRuns_map (f : List ℚ → List ℚ) (hf : Function.Injective f)
    (l : List (List ℚ)) :
    groupRuns (l.map f) = (groupRuns l).map (fun r => (f r.1, r.2)) := by
  cases l with
  | nil => rfl
  | cons sf rest =>
    simp only [List.map_cons, groupRuns]
    exact runsAux_map f hf sf 1 rest

lemma normEntries_inv (N : ℕ) (v : List (List ℚ)) :
    normEntries N ((v.map invScale).map SFEntry.vec) =
      Except.map (fun ws => ws.map invScale) (normEntries N (v.map SFEntry.vec)) := by
  induction v with
  | nil => rfl
  | cons xs v ih =>
    simp only [List.map_cons, normEntries, normEntry, ih]
    have hlen : (invScale xs).length = xs.length := List.length_map _ _
    by_cases hl : xs.length = N
    · rw [if_pos (hlen.trans hl), if_pos hl]
      cases normEntries N (v.map SFEntry.vec) with
      | error e => rfl
      | ok vs => rfl
    · rw [if_neg (fun hc => hl (hlen.symm.trans hc)), if_neg hl]
      rfl

lemma fix_inv (N : ℕ) (v : List (List ℚ)) (b : ℕ) :
    fix_scale_factors N (.seq ((v.map invScale).map SFEntry.vec)) b =
      Except.map (fun rs => rs.map (fun r => (invScale r.1, r.2)))
        (fix_scale_factors N (.seq (v.map SFEntry.vec)) b) := by
  simp only [fix_scale_factors, normEntries_inv]
  cases normEntries N (v.map SFEntry.vec) with
  | error e => rfl
  | ok vs =>
    simp only [Except.map]
    rw [groupRuns_map invScale invScale_injective]

/-! ### Concrete planner evaluations shared by the scenario claims -/

lemma eval_out_4_1_10_from_end : outSize 4 1 10 Alignment.from_end = 10 := by
  simp only [outSize]
  norm_num [pyInt]

lemma eval_4_1_10_from_end :
    calculate_crop_pad 4 1 10 Alignment.from_end = .ok ⟨0, 4, 1, 6, 0, 4⟩ := by
  simp only [calculate_crop_pad, outSize]
  norm_num [pyInt, padProps]

lemma eval_4_1_10_from_start :
    calculate_crop_pad 4 1 10 Alignment.from_start = .ok ⟨0, 4, 1, 0, 6, 4⟩ := by
  simp only [calculate_crop_pad, outSize]
  norm_num [pyInt, padProps]

lemma eval_out_9_2_5_mid : outSize 9 2 5 Alignment.mid = 10 := by
  simp only [outSize]
  norm_num [pyInt]

lemma eval_9_2_5_mid :
    calculate_crop_pad 9 2 5 Alignment.mid = .error ZErr.notImplemented := by
  simp only [calculate_crop_pad, outSize]
  norm_num [pyInt]

/-! ### Claims about the per-axis planner -/

/-- C1 (counterexample): for input size 4, target size 10, scale factor 1.0
and alignment `from_end`, the padding branch returns the padding pair
`(6, 0)` — all six padding voxels are placed *before* the data — and not
`(0, 6)` as the claim states.  (`padBefore, padAfter` are fields 4 and 5 of
the returned plan.) -/
theorem claim_C1_counterexample :
    calculate_crop_pad 4 1 10 Alignment.from_end = .ok ⟨0, 4, 1, 6, 0, 4⟩ ∧
    ((6 : ℤ), (0 : ℤ)) ≠ ((0 : ℤ), (6 : ℤ)) :=
  ⟨eval_4_1_10_from_end, by decide⟩

/-- C1 (amended): in the padding branch, `from_end` places all padding
*before* the data (`pad_before = target - interp_target`, `pad_after = 0`),
`mid` splits it evenly, and every other alignment places all padding *after*;
in particular, for input size 4, target size 10, scale factor 1.0 and
alignment `from_end` the returned padding pair is `(6, 0)` with corrected
scale 1.0 (the closed conjunct restates the scenario). -/
theorem claim_C1_amended (i : ℤ) (sf : ℚ) (t : ℤ) (a : Alignment) (p : AxisPlan)
    (h : calculate_crop_pad i sf t a = .ok p)
    (hout : outSize i sf t a > i) :
    ((a = Alignment.from_end → p.padBefore = t - p.interpTarget ∧ p.padAfter = 0) ∧
     (a = Alignment.mid → p.padBefore = p.padAfter ∧
        p.padBefore + p.padAfter = t - p.interpTarget) ∧
     (a = Alignment.from_start → p.padBefore = 0 ∧ p.padAfter = t - p.interpTarget)) ∧
    calculate_crop_pad 4 1 10 Alignment.from_end = .ok ⟨0, 4, 1, 6, 0, 4⟩ := by
  obtain ⟨-, -, -, -, -, -, -, hpar, hpb, hpa⟩ := pad_branch_ok h hout
  refine ⟨⟨?_, ?_, ?_⟩, eval_4_1_10_from_end⟩ <;> rintro rfl
  · have h1 : (padProps Alignment.from_end).1 = 1 := rfl
    have h2 : (padProps Alignment.from_end).2 = 0 := rfl
    rw [hpb, hpa, h1, h2, zero_mul, one_mul, pyInt_intCast, pyInt_zero]
    exact ⟨rfl, rfl⟩
  · refine ⟨by rw [hpb, hpa]; exact rfl, ?_⟩
    rw [hpb, hpa]
    exact pad_sum_eq hpar
  · have h1 : (padProps Alignment.from_start).1 = 0 := rfl
    have h2 : (padProps Alignment.from_start).2 = 1 := rfl
    rw [hpb, hpa, h1, h2, zero_mul, one_mul, pyInt_intCast, pyInt_zero]
    exact ⟨rfl, rfl⟩

/-- C1 (witness): the amended padding-placement rule applied at the scenario
input (4, 1.0, 10, `from_end`): pad_before `6 = 10 - 4`, pad_after `0`. -/
theorem claim_C1_witness : (6 : ℤ) = 10 - 4 ∧ (0 : ℤ) = 0 :=
  (claim_C1_amended 4 1 10 Alignment.from_end ⟨0, 4, 1, 6, 0, 4⟩
    eval_4_1_10_from_end (by rw [eval_out_4_1_10_from_end]; norm_num)).1.1 rfl

/-- C2 (counterexample): for input size 9, target size 5, scale factor 2.0
and alignment `mid`, the planner does *not* return a crop plan with
`out = 8`, crop window `[0, 8)` and corrected scale `8/5`: it raises the
`NotImplementedError`. -/
theorem claim_C2_counterexample :
    calculate_crop_pad 9 2 5 Alignment.mid = .error ZErr.notImplemented ∧
    calculate_crop_pad 9 2 5 Alignment.mid ≠ .ok ⟨0, 8, 8 / 5, 0, 0, 5⟩ := by
  refine ⟨eval_9_2_5_mid, ?_⟩
  intro hc
  rw [eval_9_2_5_mid] at hc
  exact Except.noConfusion hc

/-- C2 (amended): for input size 9, target size 5, scale factor 2.0 and
alignment `mid`: `source_size = 10`, the parity rule keeps `out = 10` (the
largest even value `≤ source_size`, not 8), so `out > input_size` and the
*padding* branch is taken with `interp_target_size = int(9 / 2.0) = 4`;
the shortfall `4 - 5 = -1` is odd under `mid`, so the call raises the
unimplemented-edge-case error instead of returning a crop plan. -/
theorem claim_C2_amended :
    outSize 9 2 5 Alignment.mid = 10 ∧ pyInt ((9 : ℚ) / 2) = 4 ∧
    calculate_crop_pad 9 2 5 Alignment.mid = .error ZErr.notImplemented :=
  ⟨eval_out_9_2_5_mid, by norm_num [pyInt], eval_9_2_5_mid⟩

/-- C4: for every planner call that returns, whenever padding is active the
padding amounts sum to `target - interp_target`, and whenever cropping is
active the crop window has length `out` with `out ≤ input_size`. -/
theorem claim_C4_invariants (i : ℤ) (sf : ℚ) (t : ℤ) (a : Alignment)
    (p : AxisPlan) (h : calculate_crop_pad i sf t a = .ok p) :
    (0 < p.padBefore + p.padAfter →
       p.padBefore + p.padAfter = t - p.interpTarget) ∧
    (p.stop - p.start < i →
       p.stop - p.start = outSize i sf t a ∧ outSize i sf t a ≤ i) := by
  by_cases hout : outSize i sf t a > i
  · obtain ⟨-, -, -, -, hst, hsp, -, hpar, hpb, hpa⟩ := pad_branch_ok h hout
    constructor
    · intro _
      rw [hpb, hpa]
      exact pad_sum_eq hpar
    · intro hlt
      omega
  · obtain ⟨-, hpb, hpa, -, -, hdiff, -, -⟩ := crop_branch_ok h hout
    constructor
    · intro hpos
      omega
    · intro _
      exact ⟨hdiff, by omega⟩

/-- C4 (witness): at (4, 1.0, 10, `from_start`) padding is active and sums to
`10 - 4`; at (9, 1.0, 7, `from_start`) cropping is active with window length
`out = 7 ≤ 9`. -/
theorem claim_C4_witness :
    calculate_crop_pad 4 1 10 Alignment.from_start = .ok ⟨0, 4, 1, 0, 6, 4⟩ ∧
    (0 : ℤ) + 6 = 10 - 4 := by
  refine ⟨eval_4_1_10_from_start, ?_⟩
  exact (claim_C4_invariants 4 1 10 Alignment.from_start ⟨0, 4, 1, 0, 6, 4⟩
    eval_4_1_10_from_start).1 (by norm_num)

/-- C5: no planner call that returns has both positive total padding and a
crop window strictly shorter than the input: per axis, either it crops (or
fits exactly) with zero padding, or it pads the whole uncropped input. -/
theorem claim_C5_never_both (i : ℤ) (sf : ℚ) (t : ℤ) (a : Alignment)
    (p : AxisPlan) (h : calculate_crop_pad i sf t a = .ok p) :
    ¬ (0 < p.padBefore + p.padAfter ∧ p.stop - p.start < i) := by
  by_cases hout : outSize i sf t a > i
  · obtain ⟨-, -, -, -, hst, hsp, -, -, -, -⟩ := pad_branch_ok h hout
    rintro ⟨-, hlt⟩
    omega
  · obtain ⟨-, hpb, hpa, -, -, -, -, -⟩ := crop_branch_ok h hout
    rintro ⟨hpos, -⟩
    omega

/-- C5 (witness): instantiated at the padding scenario (4, 1.0, 10,
`from_end`), where the returned plan pads 6 and crops nothing. -/
theorem claim_C5_witness :
    ¬ ((0 : ℤ) < 6 + 0 ∧ (4 : ℤ) - 0 < 4) :=
  claim_C5_never_both 4 1 10 Alignment.from_end ⟨0, 4, 1, 6, 0, 4⟩
    eval_4_1_10_from_end

/-- C6 (counterexample): at (4, 1.0, 10, `from_start`) the padding branch
returns corrected scale 1.0 and `interp_target_size = 4`, but
`corrected_scale * target_size = 1.0 * 10` rounds (by the `int()` rule) to
`10 ≠ 4`: the product does *not* recover the padding branch's extent. -/
theorem claim_C6_counterexample :
    calculate_crop_pad 4 1 10 Alignment.from_start = .ok ⟨0, 4, 1, 0, 6, 4⟩ ∧
    pyInt ((1 : ℚ) * 10) = 10 ∧ (10 : ℤ) ≠ 4 :=
  ⟨eval_4_1_10_from_start, by norm_num [pyInt], by decide⟩

/-- C6 (amended): the corrected scale is recoverable *by the producing
branch's own formula*: in the crop/exact-fit branch
`int(corrected_scale * target_size) = out`, and in the padding branch
`int(input_size / corrected_scale) = interp_target_size`. -/
theorem claim_C6_amended (i : ℤ) (sf : ℚ) (t : ℤ) (a : Alignment)
    (p : AxisPlan) (h : calculate_crop_pad i sf t a = .ok p) :
    (¬ outSize i sf t a > i →
       pyInt (p.scale * (t : ℚ)) = outSize i sf t a) ∧
    (outSize i sf t a > i →
       pyInt ((i : ℚ) / p.scale) = p.interpTarget) := by
  constructor
  · intro hout
    obtain ⟨ht, -, -, -, hscale, -, -, -⟩ := crop_branch_ok h hout
    rw [hscale, div_mul_cancel₀ _ (by exact_mod_cast ht : ((t : ℤ) : ℚ) ≠ 0),
      pyInt_intCast]
  · intro hout
    obtain ⟨-, -, hit, hit0, -, -, hscale, -, -, -⟩ := pad_branch_ok h hout
    have hi0 : (i : ℚ) ≠ 0 := by
      intro hz
      apply hit0
      rw [hit, hz, zero_div, pyInt_zero]
    have hc : ((p.interpTarget : ℤ) : ℚ) ≠ 0 := by exact_mod_cast hit0
    rw [hscale, div_div_eq_mul_div, mul_comm, mul_div_assoc, div_self hi0,
      mul_one, pyInt_intCast]

/-- C6 (witness): crop side at (9, 1.0, 7, `from_start`), where
`int(1.0 * 7) = 7 = out`; pad side at (4, 1.0, 10, `from_start`), where
`int(4 / 1.0) = 4 = interp_target_size`. -/
theorem claim_C6_witness :
    calculate_crop_pad 9 1 7 Alignment.from_start = .ok ⟨0, 7, 1, 0, 0, 7⟩ ∧
    pyInt ((1 : ℚ) * 7) = outSize 9 1 7 Alignment.from_start ∧
    pyInt ((4 : ℚ) / 1) = 4 := by
  have heval : calculate_crop_pad 9 1 7 Alignment.from_start =
      .ok ⟨0, 7, 1, 0, 0, 7⟩ := by
    simp only [calculate_crop_pad, outSize]
    norm_num [pyInt, padProps]
    all_goals decide
  refine ⟨heval, ?_, ?_⟩
  · exact (claim_C6_amended 9 1 7 Alignment.from_start ⟨0, 7, 1, 0, 0, 7⟩
      heval).1 (by simp only [outSize]; norm_num [pyInt])
  · exact (claim_C6_amended 4 1 10 Alignment.from_start ⟨0, 4, 1, 0, 6, 4⟩
      eval_4_1_10_from_start).2 (by simp only [outSize]; norm_num [pyInt])

/-- C9: in the padding branch (`out > input_size`) under `mid` alignment,
whenever the shortfall `interp_target_size - target_size` is odd, the
planner raises the unimplemented-edge-case error instead of returning. -/
theorem claim_C9_mid_odd_raises (i : ℤ) (sf : ℚ) (t : ℤ)
    (hi : 0 ≤ i) (ht : 0 < t)
    (hout : outSize i sf t Alignment.mid > i)
    (hodd : (pyInt ((i : ℚ) / sf) - t) % 2 ≠ 0) :
    calculate_crop_pad i sf t Alignment.mid = .error ZErr.notImplemented := by
  have hsf : sf ≠ 0 := by
    intro h0
    subst h0
    rw [outSize_zero_sf] at hout
    omega
  simp only [calculate_crop_pad]
  rw [if_neg (by omega : ¬ t = 0), if_pos hout, if_neg hsf]
  simp [hodd]

/-- C9 (witness): instantiated at (9, 2.0, 5, `mid`): `out = 10 > 9`,
`interp_target_size = 4`, shortfall `4 - 5 = -1` is odd, and the call
indeed raises. -/
theorem claim_C9_witness :
    calculate_crop_pad 9 2 5 Alignment.mid = .error ZErr.notImplemented :=
  claim_C9_mid_odd_raises 9 2 5 (by norm_num) (by norm_num)
    (by rw [eval_out_9_2_5_mid]; norm_num)
    (by norm_num [pyInt])

/-- C10 (implicit): crop-branch calls with positive sizes and scale return an
in-bounds crop slice: `0 ≤ start ≤ stop ≤ input_size`, for every alignment,
so the subsequent tensor slicing never indexes outside the input extent. -/
theorem claim_C10_crop_in_bounds (i : ℤ) (sf : ℚ) (t : ℤ) (a : Alignment)
    (p : AxisPlan) (hi : 0 < i) (ht : 0 < t) (hsf : 0 < sf)
    (h : calculate_crop_pad i sf t a = .ok p)
    (hout : outSize i sf t a ≤ i) :
    0 ≤ p.start ∧ p.start ≤ p.stop ∧ p.stop ≤ i := by
  obtain ⟨-, -, -, -, -, hdiff, hstart, hstop⟩ := crop_branch_ok h (by omega)
  have hout0 : 0 ≤ outSize i sf t a := outSize_nonneg (by omega) (le_of_lt hsf) a
  rcases a with _ | _ | _
  · simp only [if_neg (by decide : ¬ Alignment.from_start = Alignment.mid),
      if_neg (by decide : ¬ Alignment.from_start = Alignment.from_end)] at hstart hstop
    omega
  · simp only [if_neg (by decide : ¬ Alignment.from_end = Alignment.mid),
      if_pos rfl] at hstart hstop
    omega
  · simp only [if_pos rfl,
      if_neg (by decide : ¬ Alignment.mid = Alignment.from_end)] at hstart hstop
    have hd : (0 : ℚ) ≤ ((i - outSize i sf t Alignment.mid : ℤ) : ℚ) / 2 := by
      apply div_nonneg _ (by norm_num)
      exact_mod_cast sub_nonneg.mpr hout
    have h0 : 0 ≤ p.start := hstart ▸ pyInt_nonneg hd
    have h1 : ((p.start : ℤ) : ℚ) ≤ ((i - outSize i sf t Alignment.mid : ℤ) : ℚ) / 2 :=
      hstart ▸ pyInt_le hd
    have h2 : (2 : ℚ) * ((p.start : ℤ) : ℚ) ≤ ((i - outSize i sf t Alignment.mid : ℤ) : ℚ) := by
      linarith
    have h3 : 2 * p.start ≤ i - outSize i sf t Alignment.mid := by
      exact_mod_cast h2
    omega

/-- C10 (witness): at (9, 0.5, 4, `mid`) the crop branch returns the centered
window `[3, 5)`, which satisfies `0 ≤ 3 ≤ 5 ≤ 9`. -/
theorem claim_C10_witness :
    calculate_crop_pad 9 (1 / 2) 4 Alignment.mid = .ok ⟨3, 5, 1 / 2, 0, 0, 4⟩ ∧
    ((0 : ℤ) ≤ 3 ∧ (3 : ℤ) ≤ 5 ∧ (5 : ℤ) ≤ 9) := by
  have heval : calculate_crop_pad 9 (1 / 2) 4 Alignment.mid =
      .ok ⟨3, 5, 1 / 2, 0, 0, 4⟩ := by
    simp only [calculate_crop_pad, outSize]
    norm_num [pyInt, padProps]
    all_goals decide
  refine ⟨heval, ?_⟩
  exact claim_C10_crop_in_bounds 9 (1 / 2) 4 Alignment.mid ⟨3, 5, 1 / 2, 0, 0, 4⟩
    (by norm_num) (by norm_num) (by norm_num) heval
    (by simp only [outSize]; norm_num [pyInt])

/-- C3 (counterexample): with `N = 2` and batch size 3, the flat sequence
`[2.0, 3.0]` of exactly `N` numbers is *not* applied as one per-axis vector
to every sample of the batch: `_fix_scale_factors` iterates the sequence
per-sample (its first dimension indexes the batch), broadcasts each number
to both axes, and yields two runs of length 1 — not a single run
`([2.0, 3.0], 3)` whose length is the batch size. -/
theorem claim_C3_counterexample :
    fix_scale_factors 2 (.seq [.num 2, .num 3]) 3 =
      .ok [([2, 2], 1), ([3, 3], 1)] ∧
    fix_scale_factors 2 (.seq [.num 2, .num 3]) 3 ≠ .ok [([2, 3], 3)] := by
  refine ⟨rfl, ?_⟩
  intro hc
  rw [(rfl : fix_scale_factors 2 (.seq [.num 2, .num 3]) 3 =
    .ok [([2, 2], 1), ([3, 3], 1)])] at hc
  injection hc with hc
  exact absurd hc (by decide)

/-- C3 (amended): a flat sequence of numbers is interpreted *per-sample*:
each number is broadcast to a constant `N`-vector for one batch sample,
consecutive equal numbers are merged, the run lengths sum to the sequence
length (independent of the batch size), and concatenating the runs
reproduces the broadcast per-sample vectors in order.  A single batch-length
run equal to the given sequence does not arise (unless the sequence is
constant and its length happens to equal the batch size). -/
theorem claim_C3_amended (N b : ℕ) (xs : List ℚ) (rs : List (List ℚ × ℕ))
    (h : fix_scale_factors N (.seq (xs.map SFEntry.num)) b = .ok rs) :
    (rs.map Prod.snd).sum = xs.length ∧
    rs.flatMap (fun r => List.replicate r.2 r.1) = xs.map (List.replicate N) := by
  rw [fix_seq_nums] at h
  injection h with h
  subst h
  refine ⟨?_, groupRuns_flat _⟩
  rw [groupRuns_snd_sum, List.length_map]

/-- C3 (witness): the amended statement at `N = 2`, batch size 5,
sequence `[2.0, 3.0]`: the two runs `([2,2],1), ([3,3],1)` have lengths
summing to 2 (the sequence length, not the batch size 5) and flatten back
to the broadcast per-sample vectors `[[2,2],[3,3]]`. -/
theorem claim_C3_witness :
    (([(([2, 2] : List ℚ), (1 : ℕ)), ([3, 3], 1)]).map Prod.snd).sum =
      ([(2 : ℚ), 3]).length ∧
    ([(([2, 2] : List ℚ), (1 : ℕ)), ([3, 3], 1)]).flatMap
        (fun r => List.replicate r.2 r.1) =
      [(2 : ℚ), 3].map (List.replicate 2) :=
  claim_C3_amended 2 5 [2, 3] [([2, 2], 1), ([3, 3], 1)] rfl

/-- C7: for every batch and contract-conforming accepted scale-factor input,
the run decomposition is lossless and order-preserving: the run lengths sum
to the batch size, and splitting any batch of that size into the run chunks
and concatenating them in order reconstructs the original batch. -/
theorem claim_C7_lossless_runs (N b : ℕ) (sfs : ScaleAll)
    (rs : List (List ℚ × ℕ)) (input : List ℕ)
    (h : fix_scale_factors N sfs b = .ok rs)
    (hc : conformingScales sfs b) (hlen : input.length = b) :
    (rs.map Prod.snd).sum = b ∧
    (splitChunks input (rs.map Prod.snd)).flatten = input := by
  have hsum : (rs.map Prod.snd).sum = b := by
    cases sfs with
    | num x =>
      simp only [fix_scale_factors] at h
      injection h with h
      subst h
      simp
    | seq es =>
      simp only [fix_scale_factors] at h
      cases hes : normEntries N es with
      | error e =>
        rw [hes] at h
        exact Except.noConfusion h
      | ok vs =>
        rw [hes] at h
        injection h with h
        subst h
        rw [groupRuns_snd_sum, normEntries_length hes]
        exact hc
  exact ⟨hsum, splitChunks_flatten input _ (by rw [hsum, hlen])⟩

/-- C7 (witness): batch `[10, 20]` of size 2 with per-sample vectors
`[[2,3],[2,3]]` groups into the single run `([2,3], 2)`; the lengths sum to
2 and splitting-and-flattening gives back `[10, 20]`. -/
theorem claim_C7_witness :
    (([(([2, 3] : List ℚ), (2 : ℕ))]).map Prod.snd).sum = 2 ∧
    (splitChunks [10, 20] (([(([2, 3] : List ℚ), (2 : ℕ))]).map Prod.snd)).flatten =
      [10, 20] :=
  claim_C7_lossless_runs 2 2 (.seq [.vec [2, 3], .vec [2, 3]])
    [([2, 3], 2)] [10, 20] rfl rfl rfl

/-! ### `rescale=True` versus reciprocal scale factors (C8) -/

/-- C8: calling `forward` with `rescale=True` and per-sample scale vectors
`v` (all entries nonzero) returns exactly the same output and corrected
scale vectors as calling it with `rescale=False` and the elementwise
reciprocal vectors, for every interpolation backbone, batch, target shape
and dimensionality.  (Over exact rationals the inversion is injective, so
both sides produce identical run decompositions and identical
`_interpolate` calls.) -/
theorem claim_C8_rescale_reciprocal {α : Type}
    (interpolate : List α → List ℚ → List ℤ → List α × List ℚ)
    (N : ℕ) (input : List α) (v : List (List ℚ)) (target_shape : List ℤ)
    (hnz : ∀ xs ∈ v, ∀ x ∈ xs, x ≠ 0) :
    forward interpolate N input (.seq (v.map SFEntry.vec)) target_shape true =
      forward interpolate N input (.seq ((v.map invScale).map SFEntry.vec))
        target_shape false := by
  by_cases htgt : target_shape.length = 0
  · simp only [forward, if_pos htgt]
  simp only [forward, if_neg htgt]
  rw [fix_inv]
  cases hfe : fix_scale_factors N (.seq (v.map SFEntry.vec)) input.length with
  | error e => rfl
  | ok runs =>
    simp only [Except.map]
    by_cases hrl : runs.length = 0
    · rw [if_pos hrl, if_pos (by simp [hrl] : (runs.map
        (fun r => (invScale r.1, r.2))).length = 0)]
    rw [if_neg hrl, if_neg (by simp [hrl] : ¬ (runs.map
      (fun r => (invScale r.1, r.2))).length = 0)]
    have hsnd : (runs.map (fun r => (invScale r.1, r.2))).map Prod.snd =
        runs.map Prod.snd := by
      simp [List.map_map, Function.comp]
    rw [hsnd, List.zip_map_right]
    simp only [List.map_map]
    rfl

/-- C8 (witness): instantiated with the identity-style backbone
`fun c v _ => (c, v)`, batch `[0, 1]`, per-sample vectors `[[2,4],[2,4]]`
(nonzero) and target shape `[5, 5]`. -/
theorem claim_C8_witness :
    forward (fun c v _ => (c, v)) 2 [(0 : ℕ), 1]
        (.seq ([[2, 4], [2, 4]].map SFEntry.vec)) [5, 5] true =
      forward (fun c v _ => (c, v)) 2 [(0 : ℕ), 1]
        (.seq (([[(2 : ℚ), 4], [2, 4]].map invScale).map SFEntry.vec)) [5, 5] false :=
  claim_C8_rescale_reciprocal (fun c v _ => (c, v)) 2 [0, 1] [[2, 4], [2, 4]]
    [5, 5] (by decide)

end LITZoom
